import Mathlib

/-!
Verification of the Book CRUD data-access layer (`app/models.py`,
`app/schemas.py`, `app/crud.py`) as a shallow embedding.

Modelling choices:
* `datetime.utcnow()` is modelled by an explicit clock value `now : Nat`
  passed to each operation that reads the clock; all clock reads inside a
  single operation happen at that one instant.
* Python `float` prices carry no arithmetic in this layer, so `price` is
  modelled by `Rat` (an exact stand-in for the numeric payload).
* The database is a list of rows plus the next auto-increment key, as a
  SQLite table with an `INTEGER PRIMARY KEY` column behaves for this code.
* `BookUpdate.dict(exclude_unset=True)` distinguishes a field absent from
  the payload from one explicitly set: each payload field is wrapped in
  `Option`, `none` meaning "not set".  The only nullable column is
  `description`, so its payload slot is `Option (Option String)`: set to
  `some none` means "explicitly set to null".  Payloads that set a
  non-nullable column to null would be rejected by the storage engine's
  NOT NULL constraint at commit time and are outside this model.
-/

namespace BookStore

/-- Payload for creating a new book (`BookCreate` in `app/schemas.py`). -/
structure BookCreate where
  title : String
  author : String
  year : Int
  price : Rat
  in_stock : Bool := true
  description : Option String := none
  deriving Repr, DecidableEq

/-- Table row for a book (`Book` in `app/models.py`): `id` is `Optional[int]`,
`None` before the store assigns the primary key. -/
structure Book where
  id : Option Nat := none
  title : String
  author : String
  year : Int
  price : Rat
  in_stock : Bool := true
  description : Option String := none
  created_at : Nat
  updated_at : Nat
  deriving Repr, DecidableEq

/-- Refresh `updated_at` to the current time (`Book.update_timestamp`). -/
def Book.update_timestamp (b : Book) (now : Nat) : Book :=
  { b with updated_at := now }

/-- Partial-update payload (`BookUpdate` in `app/schemas.py`).  The outer
`Option` is pydantic field set-ness (`exclude_unset`); the inner `Option`
on `description` is SQL nullability. -/
structure BookUpdate where
  title : Option String := none
  author : Option String := none
  year : Option Int := none
  price : Option Rat := none
  in_stock : Option Bool := none
  description : Option (Option String) := none
  deriving Repr, DecidableEq

/-- The update payload with no field set (`dict(exclude_unset=True)` empty). -/
def BookUpdate.empty : BookUpdate := {}

/-- The database state: table rows in storage order plus the next
auto-increment primary key. -/
structure DB where
  rows : List Book
  nextId : Nat
  deriving Repr, DecidableEq

/-- A freshly initialised store (`create_db_and_tables` on an empty file):
no rows, first assigned key is 1. -/
def DB.empty : DB := { rows := [], nextId := 1 }

/-- Primary-key lookup, as `session.get(Book, book_id)`. -/
def dbGet (db : DB) (book_id : Nat) : Option Book :=
  db.rows.find? (fun r => r.id == some book_id)

/-- Build a row from the create payload, as `Book.from_orm(book)`; `id` is
still unassigned, and both timestamps come from their `utcnow` default
factories. -/
def bookFromCreate (now : Nat) (p : BookCreate) : Book :=
  { id := none
    title := p.title
    author := p.author
    year := p.year
    price := p.price
    in_stock := p.in_stock
    description := p.description
    created_at := now
    updated_at := now }

/-- Model of `crud.create_book`: build the row, insert it (commit assigns
the auto-increment key), refresh, and return the stored record with the
new database state. -/
def create_book (db : DB) (now : Nat) (book : BookCreate) : Book × DB :=
  let db_book := { bookFromCreate now book with id := some db.nextId }
  (db_book, { rows := db.rows ++ [db_book], nextId := db.nextId + 1 })

/-- Model of `crud.get_book`: return a single book by primary key, or `none`. -/
def get_book (db : DB) (book_id : Nat) : Option Book :=
  dbGet db book_id

/-- Model of `crud.get_books`: `select(Book).offset(offset).limit(limit)`
over the table in storage order. -/
def get_books (db : DB) (offset : Nat) (limit : Nat) : List Book :=
  (db.rows.drop offset).take limit

/-- The `setattr` loop of `crud.update_book`: overwrite exactly the fields
present in `book_data.dict(exclude_unset=True)`. -/
def applyUpdate (b : Book) (u : BookUpdate) : Book :=
  { b with
    title := u.title.getD b.title
    author := u.author.getD b.author
    year := u.year.getD b.year
    price := u.price.getD b.price
    in_stock := u.in_stock.getD b.in_stock
    description := u.description.getD b.description }

/-- Model of `crud.update_book`: fetch by primary key; on a miss return `none` with
the state untouched; otherwise apply the set fields, refresh
`updated_at`, commit the changed row back, and return it. -/
def update_book (db : DB) (now : Nat) (book_id : Nat) (book_data : BookUpdate) :
    Option Book × DB :=
  match dbGet db book_id with
  | none => (none, db)
  | some db_book =>
    let db_book := (applyUpdate db_book book_data).update_timestamp now
    (some db_book,
      { db with rows := db.rows.map (fun r => if r.id == some book_id then db_book else r) })

/-- Model of `crud.delete_book`: fetch by primary key; on a miss return `false` with
the state untouched; otherwise remove the row and return `true`. -/
def delete_book (db : DB) (book_id : Nat) : Bool × DB :=
  match dbGet db book_id with
  | none => (false, db)
  | some _ => (true, { db with rows := db.rows.filter (fun r => !(r.id == some book_id)) })

/-- One invocation of the mutating data-access operations, with the clock
value at which it runs (`delete_book` never reads the clock). -/
inductive Op where
  | create (now : Nat) (p : BookCreate)
  | update (now : Nat) (book_id : Nat) (u : BookUpdate)
  | delete (book_id : Nat)
  deriving Repr, DecidableEq

/-- Apply one operation to the store, discarding the returned value. -/
def step (db : DB) (op : Op) : DB :=
  match op with
  | .create now p => (create_book db now p).2
  | .update now book_id u => (update_book db now book_id u).2
  | .delete book_id => (delete_book db book_id).2

/-- Run a sequence of operations left to right. -/
def run (db : DB) (ops : List Op) : DB :=
  ops.foldl step db

/-- The clock never runs backwards: every clock-reading operation in the
list happens no earlier than `t`, and the readings are nondecreasing. -/
def timeLB : Nat → List Op → Prop
  | _, [] => True
  | t, .create now _ :: rest => t ≤ now ∧ timeLB now rest
  | t, .update now _ _ :: rest => t ≤ now ∧ timeLB now rest
  | t, .delete _ :: rest => timeLB t rest

/-- Well-formed store: every row has an assigned primary key smaller than
the next auto-increment key.  This holds for every store the code can
build and is what the storage engine guarantees for the key column. -/
def WF (db : DB) : Prop :=
  ∀ r ∈ db.rows, ∃ n, r.id = some n ∧ n < db.nextId

/-- A concrete create payload, for witnesses. -/
def sampleCreate : BookCreate :=
  { title := "Dune", author := "Herbert", year := 1965, price := 12 }

/-- A concrete stored row, for witnesses. -/
def sampleBook : Book :=
  { id := some 1, title := "Dune", author := "Herbert", year := 1965,
    price := 12, in_stock := true, description := some "classic",
    created_at := 3, updated_at := 4 }

/-- A concrete one-row store, for witnesses. -/
def sampleDB : DB := { rows := [sampleBook], nextId := 2 }

/-- The update payload whose only set field is `price` (set to `v`). -/
def priceOnly (v : Rat) : BookUpdate := { price := some v }

/-- The update payload whose only set field is `description`, explicitly
set to null. -/
def descNull : BookUpdate := { description := some none }

/-- C1: for every valid create payload, the record returned by
`create_book` carries the freshly generated primary key (in particular a
non-null identifier), and its `created_at` equals its `updated_at` at the
moment of creation. -/
theorem create_book_assigns_id_and_equal_timestamps
    (db : DB) (now : Nat) (p : BookCreate) :
    (create_book db now p).1.id = some db.nextId ∧
    (create_book db now p).1.id ≠ none ∧
    (create_book db now p).1.created_at = (create_book db now p).1.updated_at := by
  refine ⟨rfl, ?_, rfl⟩
  simp [create_book]

/-- C2: updating a stored record with the empty partial payload yields the
record with `updated_at` refreshed to the current time and every other
field (id, title, author, year, price, in_stock, description, created_at)
exactly as before; when the clock has moved since the last write, the
refreshed `updated_at` differs from the old one. -/
theorem update_book_empty_payload_frame
    (db : DB) (now : Nat) (book_id : Nat) (b : Book)
    (h : get_book db book_id = some b) :
    (update_book db now book_id BookUpdate.empty).1 =
      some { b with updated_at := now } ∧
    (b.updated_at ≠ now →
      ({ b with updated_at := now } : Book).updated_at ≠ b.updated_at) := by
  constructor
  · have h' : dbGet db book_id = some b := h
    unfold update_book
    rw [h']
    rfl
  · exact fun hne => Ne.symm hne

/-- Witness for C2 at a concrete store, record and clock value. -/
theorem update_book_empty_payload_frame_witness :
    get_book sampleDB 1 = some sampleBook ∧
    ((update_book sampleDB 9 1 BookUpdate.empty).1 =
        some { sampleBook with updated_at := 9 } ∧
      (sampleBook.updated_at ≠ 9 →
        ({ sampleBook with updated_at := 9 } : Book).updated_at ≠
          sampleBook.updated_at)) :=
  ⟨by decide, update_book_empty_payload_frame sampleDB 9 1 sampleBook (by decide)⟩

/-- C3: for an id with no matching row, `get_book`, `update_book` and
`delete_book` return `none`, `none` and `false` respectively, as ordinary
return values (the operations are total functions of the state). -/
theorem not_found_returns_signals
    (db : DB) (now : Nat) (book_id : Nat) (u : BookUpdate)
    (h : get_book db book_id = none) :
    get_book db book_id = none ∧
    (update_book db now book_id u).1 = none ∧
    (delete_book db book_id).1 = false := by
  have h' : dbGet db book_id = none := h
  refine ⟨h, ?_, ?_⟩
  · unfold update_book
    rw [h']
  · unfold delete_book
    rw [h']

/-- Witness for C3 at a concrete store and missing id. -/
theorem not_found_returns_signals_witness :
    get_book sampleDB 7 = none ∧
    (get_book sampleDB 7 = none ∧
      (update_book sampleDB 0 7 BookUpdate.empty).1 = none ∧
      (delete_book sampleDB 7).1 = false) :=
  ⟨by decide, not_found_returns_signals sampleDB 0 7 BookUpdate.empty (by decide)⟩

/-- C4: updating a stored record with a payload whose only set field is
`price` yields the record with exactly `price` overwritten and
`updated_at` refreshed; title, author, year, in_stock, description (and
id, created_at) are untouched. -/
theorem update_book_price_only_frame
    (db : DB) (now : Nat) (book_id : Nat) (b : Book) (v : Rat)
    (h : get_book db book_id = some b) :
    (update_book db now book_id (priceOnly v)).1 =
      some { b with price := v, updated_at := now } := by
  have h' : dbGet db book_id = some b := h
  unfold update_book
  rw [h']
  rfl

/-- Witness for C4 at a concrete store, record, clock value and price. -/
theorem update_book_price_only_frame_witness :
    get_book sampleDB 1 = some sampleBook ∧
    (update_book sampleDB 9 1 (priceOnly 7)).1 =
      some { sampleBook with price := 7, updated_at := 9 } :=
  ⟨by decide, update_book_price_only_frame sampleDB 9 1 sampleBook 7 (by decide)⟩

/-- C8: `get_books` returns at most `limit` records, namely the stored
rows starting at position `offset` of the table in storage order. -/
theorem get_books_paging (db : DB) (offset limit : Nat) :
    (get_books db offset limit).length ≤ limit ∧
    ∀ i, i < limit → (get_books db offset limit)[i]? = db.rows[offset + i]? := by
  constructor
  · exact List.length_take_le _ _
  · intro i hi
    unfold get_books
    rw [List.getElem?_take_of_lt hi, List.getElem?_drop]

/-- Witness for C8 at a concrete store, offset, limit and index. -/
theorem get_books_paging_witness :
    (get_books sampleDB 0 10).length ≤ 10 ∧
    (get_books sampleDB 0 10)[0]? = sampleDB.rows[0 + 0]? :=
  ⟨(get_books_paging sampleDB 0 10).1,
    (get_books_paging sampleDB 0 10).2 0 (by decide)⟩

/-- C9: an update payload that explicitly sets `description` to null
overwrites the stored `description` with null (while refreshing
`updated_at` and leaving every other field untouched), rather than
leaving the field as it was. -/
theorem update_book_explicit_null_clears
    (db : DB) (now : Nat) (book_id : Nat) (b : Book)
    (h : get_book db book_id = some b) :
    (update_book db now book_id descNull).1 =
      some { b with description := none, updated_at := now } := by
  have h' : dbGet db book_id = some b := h
  unfold update_book
  rw [h']
  rfl

/-- Witness for C9 at a concrete record whose description is non-null
before the update and null after it. -/
theorem update_book_explicit_null_clears_witness :
    get_book sampleDB 1 = some sampleBook ∧
    sampleBook.description = some "classic" ∧
    (update_book sampleDB 9 1 descNull).1 =
      some { sampleBook with description := none, updated_at := 9 } :=
  ⟨by decide, rfl,
    update_book_explicit_null_clears sampleDB 9 1 sampleBook (by decide)⟩

/-- C10: on the not-found path, `update_book` and `delete_book` return
before issuing any write: the entire database state they return is the
input state, unchanged. -/
theorem not_found_leaves_state_unchanged
    (db : DB) (now : Nat) (book_id : Nat) (u : BookUpdate)
    (h : get_book db book_id = none) :
    (update_book db now book_id u).2 = db ∧
    (delete_book db book_id).2 = db := by
  have h' : dbGet db book_id = none := h
  constructor
  · unfold update_book
    rw [h']
  · unfold delete_book
    rw [h']

/-- In a well-formed store no existing row carries the next auto-increment
key, so the primary-key lookup for it misses every old row. -/
lemma find?_nextId_eq_none (db : DB) (hwf : WF db) :
    db.rows.find? (fun r => r.id == some db.nextId) = none := by
  apply List.find?_eq_none.mpr
  intro r hr
  obtain ⟨m, hm, hlt⟩ := hwf r hr
  simp [hm]
  omega

/-- Timestamp invariant relative to a clock bound `t`: every stored row
was created no later than it was last updated, and was last updated no
later than `t`. -/
def InvT (t : Nat) (db : DB) : Prop :=
  ∀ r ∈ db.rows, r.created_at ≤ r.updated_at ∧ r.updated_at ≤ t

/-- Equation for `step` on an update whose id is missing. -/
lemma step_update_none {db : DB} {now book_id : Nat} {u : BookUpdate}
    (hget : dbGet db book_id = none) :
    step db (.update now book_id u) = db := by
  have hstep : step db (.update now book_id u) = (update_book db now book_id u).2 := rfl
  rw [hstep]
  unfold update_book
  rw [hget]

/-- Equation for `step` on an update whose id is present. -/
lemma step_update_some {db : DB} {now book_id : Nat} {u : BookUpdate} {b : Book}
    (hget : dbGet db book_id = some b) :
    step db (.update now book_id u) =
      { db with rows := db.rows.map (fun r =>
          if r.id == some book_id
          then (applyUpdate b u).update_timestamp now else r) } := by
  have hstep : step db (.update now book_id u) = (update_book db now book_id u).2 := rfl
  rw [hstep]
  unfold update_book
  rw [hget]

/-- Equation for `step` on a delete whose id is missing. -/
lemma step_delete_none {db : DB} {book_id : Nat}
    (hget : dbGet db book_id = none) :
    step db (.delete book_id) = db := by
  have hstep : step db (.delete book_id) = (delete_book db book_id).2 := rfl
  rw [hstep]
  unfold delete_book
  rw [hget]

/-- Equation for `step` on a delete whose id is present. -/
lemma step_delete_some {db : DB} {book_id : Nat} {b : Book}
    (hget : dbGet db book_id = some b) :
    step db (.delete book_id) =
      { db with rows := db.rows.filter (fun r => !(r.id == some book_id)) } := by
  have hstep : step db (.delete book_id) = (delete_book db book_id).2 := rfl
  rw [hstep]
  unfold delete_book
  rw [hget]

/-- One operation preserves well-formedness of the store. -/
lemma WF_step (db : DB) (op : Op) (h : WF db) : WF (step db op) := by
  cases op with
  | create now p =>
    intro r hr
    rcases List.mem_append.mp
        (show r ∈ db.rows ++ [(create_book db now p).1] from hr) with h1 | h2
    · obtain ⟨n, hn, hlt⟩ := h r h1
      exact ⟨n, hn, Nat.lt_succ_of_lt hlt⟩
    · have he : r = (create_book db now p).1 := List.mem_singleton.mp h2
      subst he
      exact ⟨db.nextId, rfl, Nat.lt_succ_self _⟩
  | update now book_id u =>
    cases hget : dbGet db book_id with
    | none =>
      have hs : step db (.update now book_id u) = db := step_update_none hget
      rw [hs]
      exact h
    | some b =>
      have hs := @step_update_some db now book_id u b hget
      rw [hs]
      intro r hr
      obtain ⟨a, ha, hfa⟩ := List.mem_map.mp hr
      by_cases hc : (a.id == some book_id) = true
      · rw [if_pos hc] at hfa
        have hbmem : b ∈ db.rows := List.mem_of_find?_eq_some hget
        obtain ⟨n, hn, hlt⟩ := h b hbmem
        refine ⟨n, ?_, hlt⟩
        rw [← hfa]
        exact hn
      · rw [if_neg hc] at hfa
        rw [← hfa]
        exact h a ha
  | delete book_id =>
    cases hget : dbGet db book_id with
    | none =>
      have hs : step db (.delete book_id) = db := step_delete_none hget
      rw [hs]
      exact h
    | some b =>
      have hs := step_delete_some hget
      rw [hs]
      intro r hr
      exact h r (List.mem_filter.mp hr).1

/-- A run of operations preserves well-formedness of the store. -/
lemma WF_run (ops : List Op) : ∀ db, WF db → WF (run db ops) := by
  induction ops with
  | nil => exact fun db h => h
  | cons op rest ih => exact fun db h => ih (step db op) (WF_step db op h)

/-- Under a monotone clock, a run of operations keeps the timestamp
invariant (for some final clock bound). -/
lemma invT_run (ops : List Op) : ∀ t db, InvT t db → timeLB t ops →
    ∃ u, InvT u (run db ops) := by
  induction ops with
  | nil => exact fun t db h _ => ⟨t, h⟩
  | cons op rest ih =>
    intro t db h hlb
    cases op with
    | create now p =>
      have hlb' : t ≤ now ∧ timeLB now rest := hlb
      refine ih now (step db (.create now p)) ?_ hlb'.2
      intro r hr
      rcases List.mem_append.mp
          (show r ∈ db.rows ++ [(create_book db now p).1] from hr) with h1 | h2
      · obtain ⟨h3, h4⟩ := h r h1
        exact ⟨h3, Nat.le_trans h4 hlb'.1⟩
      · have he : r = (create_book db now p).1 := List.mem_singleton.mp h2
        subst he
        exact ⟨Nat.le_refl _, Nat.le_refl _⟩
    | update now book_id u =>
      have hlb' : t ≤ now ∧ timeLB now rest := hlb
      refine ih now (step db (.update now book_id u)) ?_ hlb'.2
      cases hget : dbGet db book_id with
      | none =>
        have hs : step db (.update now book_id u) = db := step_update_none hget
        rw [hs]
        intro r hr
        obtain ⟨h3, h4⟩ := h r hr
        exact ⟨h3, Nat.le_trans h4 hlb'.1⟩
      | some b =>
        have hs := @step_update_some db now book_id u b hget
        rw [hs]
        intro r hr
        obtain ⟨a, ha, hfa⟩ := List.mem_map.mp hr
        by_cases hc : (a.id == some book_id) = true
        · rw [if_pos hc] at hfa
          rw [← hfa]
          have hbmem : b ∈ db.rows := List.mem_of_find?_eq_some hget
          obtain ⟨h3, h4⟩ := h b hbmem
          exact ⟨Nat.le_trans h3 (Nat.le_trans h4 hlb'.1), Nat.le_refl _⟩
        · rw [if_neg hc] at hfa
          rw [← hfa]
          obtain ⟨h3, h4⟩ := h a ha
          exact ⟨h3, Nat.le_trans h4 hlb'.1⟩
    | delete book_id =>
      have hlb' : timeLB t rest := hlb
      refine ih t (step db (.delete book_id)) ?_ hlb'
      cases hget : dbGet db book_id with
      | none =>
        have hs : step db (.delete book_id) = db := step_delete_none hget
        rw [hs]
        exact h
      | some b =>
        have hs := step_delete_some hget
        rw [hs]
        intro r hr
        exact h r (List.mem_filter.mp hr).1

/-- Every row present after one more operation either carries a primary
key that some row already carried before (no operation rewrites an
existing key), or is the row freshly inserted by a create, carrying the
newly generated key. -/
lemma step_id_provenance (db : DB) (op : Op) :
    ∀ r' ∈ (step db op).rows,
      (∃ r ∈ db.rows, r'.id = r.id) ∨
      ∃ now p, op = Op.create now p ∧ r'.id = some db.nextId := by
  intro r' hr'
  cases op with
  | create now p =>
    rcases List.mem_append.mp
        (show r' ∈ db.rows ++ [(create_book db now p).1] from hr') with h1 | h2
    · exact Or.inl ⟨r', h1, rfl⟩
    · have he : r' = (create_book db now p).1 := List.mem_singleton.mp h2
      subst he
      exact Or.inr ⟨now, p, rfl, rfl⟩
  | update now book_id u =>
    cases hget : dbGet db book_id with
    | none =>
      have hs : step db (.update now book_id u) = db := step_update_none hget
      rw [hs] at hr'
      exact Or.inl ⟨r', hr', rfl⟩
    | some b =>
      have hs := @step_update_some db now book_id u b hget
      rw [hs] at hr'
      obtain ⟨a, ha, hfa⟩ := List.mem_map.mp hr'
      by_cases hc : (a.id == some book_id) = true
      · rw [if_pos hc] at hfa
        refine Or.inl ⟨b, List.mem_of_find?_eq_some hget, ?_⟩
        rw [← hfa]
        rfl
      · rw [if_neg hc] at hfa
        rw [← hfa]
        exact Or.inl ⟨a, ha, rfl⟩
  | delete book_id =>
    cases hget : dbGet db book_id with
    | none =>
      have hs : step db (.delete book_id) = db := step_delete_none hget
      rw [hs] at hr'
      exact Or.inl ⟨r', hr', rfl⟩
    | some b =>
      have hs := step_delete_some hget
      rw [hs] at hr'
      exact Or.inl ⟨r', (List.mem_filter.mp hr').1, rfl⟩

/-- C7: along any run of create/update/delete operations from a fresh
store under a monotone clock, every stored record satisfies
`created_at ≤ updated_at` and has an assigned (non-null) primary key;
moreover no further operation ever changes an existing record's id:
after one more operation every row's id either already existed or is the
one freshly assigned by a create. -/
theorem crud_lifecycle_invariants (ops : List Op) (h : timeLB 0 ops) :
    (∀ r ∈ (run DB.empty ops).rows, r.id ≠ none ∧ r.created_at ≤ r.updated_at) ∧
    (∀ op, ∀ r' ∈ (step (run DB.empty ops) op).rows,
      (∃ r ∈ (run DB.empty ops).rows, r'.id = r.id) ∨
      ∃ now p, op = Op.create now p ∧
        r'.id = some (run DB.empty ops).nextId) := by
  have hwf : WF (run DB.empty ops) :=
    WF_run ops DB.empty (fun r hr => absurd hr (List.not_mem_nil r))
  obtain ⟨u, hu⟩ :=
    invT_run ops 0 DB.empty (fun r hr => absurd hr (List.not_mem_nil r)) h
  constructor
  · intro r hr
    obtain ⟨n, hn, _⟩ := hwf r hr
    refine ⟨?_, (hu r hr).1⟩
    rw [hn]
    exact Option.some_ne_none n
  · exact fun op r' hr' => step_id_provenance (run DB.empty ops) op r' hr'

/-- A concrete run for the C7 witness: create at time 1, then an empty
update at time 2. -/
def opsW : List Op := [Op.create 1 sampleCreate, Op.update 2 1 BookUpdate.empty]

/-- The row stored after running `opsW` from the empty store. -/
def bW : Book :=
  { id := some 1, title := "Dune", author := "Herbert", year := 1965,
    price := 12, in_stock := true, description := none,
    created_at := 1, updated_at := 2 }

/-- Witness for C7 on the concrete run `opsW`, checking the invariant on
the stored row and id-provenance across a further delete of a missing id. -/
theorem crud_lifecycle_invariants_witness :
    timeLB 0 opsW ∧
    (bW.id ≠ none ∧ bW.created_at ≤ bW.updated_at) ∧
    ((∃ r ∈ (run DB.empty opsW).rows, bW.id = r.id) ∨
      ∃ now p, Op.delete 2 = Op.create now p ∧
        bW.id = some (run DB.empty opsW).nextId) := by
  have hlb : timeLB 0 opsW := ⟨Nat.zero_le 1, Nat.le_succ 1, trivial⟩
  have h := crud_lifecycle_invariants opsW hlb
  exact ⟨hlb, h.1 bW (by decide), h.2 (Op.delete 2) bW (by decide)⟩

/-- C5: round-trip — after `create_book` on a well-formed store, looking
the returned record's id up with `get_book` (with no intervening writes)
returns exactly the record `create_book` returned. -/
theorem create_then_get_roundtrip
    (db : DB) (now : Nat) (p : BookCreate) (hwf : WF db) :
    ∀ n, (create_book db now p).1.id = some n →
      get_book (create_book db now p).2 n = some (create_book db now p).1 := by
  intro n hn
  have hn' : db.nextId = n := Option.some.inj hn
  subst hn'
  show ((db.rows ++ [(create_book db now p).1]).find?
      (fun r => r.id == some db.nextId)) = some (create_book db now p).1
  rw [List.find?_append, find?_nextId_eq_none db hwf, Option.none_or]
  simp [create_book, List.find?_cons]

/-- Witness for C5: creating in the empty store and reading id 1 back. -/
theorem create_then_get_roundtrip_witness :
    WF DB.empty ∧
    (create_book DB.empty 5 sampleCreate).1.id = some 1 ∧
    get_book (create_book DB.empty 5 sampleCreate).2 1 =
      some (create_book DB.empty 5 sampleCreate).1 :=
  ⟨fun r hr => absurd hr (List.not_mem_nil r), rfl,
    create_then_get_roundtrip DB.empty 5 sampleCreate
      (fun r hr => absurd hr (List.not_mem_nil r)) 1 rfl⟩

/-- C6: whenever `delete_book` reports success, an immediately following
`get_book` for the same id (with no intervening writes) returns `none`. -/
theorem delete_then_get_none (db : DB) (book_id : Nat)
    (h : (delete_book db book_id).1 = true) :
    get_book (delete_book db book_id).2 book_id = none := by
  unfold delete_book at h ⊢
  cases hget : dbGet db book_id with
  | none =>
    rw [hget] at h
    exact Bool.noConfusion h
  | some b =>
    show (db.rows.filter (fun r => !(r.id == some book_id))).find?
        (fun r => r.id == some book_id) = none
    apply List.find?_eq_none.mpr
    intro r hr
    have h2 := (List.mem_filter.mp hr).2
    simp at h2 ⊢
    exact h2

/-- Witness for C6: deleting id 1 from the one-row store succeeds and the
following lookup misses. -/
theorem delete_then_get_none_witness :
    (delete_book sampleDB 1).1 = true ∧
    get_book (delete_book sampleDB 1).2 1 = none :=
  ⟨by decide, delete_then_get_none sampleDB 1 (by decide)⟩

/-- Witness for C10 at a concrete store and missing id. -/
theorem not_found_leaves_state_unchanged_witness :
    get_book sampleDB 7 = none ∧
    ((update_book sampleDB 0 7 BookUpdate.empty).2 = sampleDB ∧
      (delete_book sampleDB 7).2 = sampleDB) :=
  ⟨by decide,
    not_found_leaves_state_unchanged sampleDB 0 7 BookUpdate.empty (by decide)⟩

end BookStore
